import Mathlib

/-
Verification of the attendance-tracker core: the attendance
materialization engine, the attendance state machine, the compliance
analytics engine, and the trend aggregator, together with the
routine-timetable client logic.

The repository ships the React frontend (attendance-frontend/src) and the
backend's README; the Django backend implementation itself is not part of
the source tree, so the backend operations are modelled from the
specification (each such definition is marked accordingly).  Dates are
modelled as day numbers (Nat), times of day as minutes since midnight
(Nat), and the status / attendance_type enumerations as the strings used
by the JSON data model.
-/

/-- An attendance record, mirroring the data model in the backend README
(fields: id, subject, date, status, attendance_type, start_time,
end_time, notes, is_holiday). -/
structure AttendanceRecord where
  id : Nat
  subject : Nat
  date : Nat
  status : String
  attendance_type : String
  start_time : Nat
  end_time : Nat
  notes : String
  is_holiday : Bool
  deriving DecidableEq, Repr

/-- A routine entry: a weekly recurring template (day_of_week in 0..6,
start and end times), mirroring the Routine Entry data model. -/
structure RoutineEntry where
  id : Nat
  subject : Nat
  day_of_week : Nat
  start_time : Nat
  end_time : Nat
  deriving DecidableEq, Repr

/-- The identity key (subject_id, date, start_time) of an attendance
record: the uniqueness anchor of the data model. -/
def identityKey (r : AttendanceRecord) : Nat × Nat × Nat :=
  (r.subject, r.date, r.start_time)

/-- Whether some record in the store already carries the given identity
key. -/
def hasKey (s : List AttendanceRecord) (k : Nat × Nat × Nat) : Bool :=
  s.any (fun r => decide (identityKey r = k))

/-- Modelled from the spec: the backing store's insert-if-absent
(first-writer-wins) semantic for AttendanceRecord creation — a duplicate
insert attempt on an existing identity key is silently absorbed and the
store is unchanged; otherwise the record is added. -/
def insertIfAbsent (s : List AttendanceRecord) (r : AttendanceRecord) :
    List AttendanceRecord :=
  if hasKey s (identityKey r) then s else r :: s

/-- The weekday of a day number (days are counted so that day mod 7 is
the day_of_week slot of the routine). -/
def weekdayOf (d : Nat) : Nat := d % 7

/-- Modelled from the spec: the record the Calendar Materializer creates
for a routine entry on a concrete date — attendance_type "routine",
default status "absent", identity (subject, date, entry.start_time). -/
def materializedRecord (e : RoutineEntry) (d : Nat) : AttendanceRecord :=
  { id := 0
    subject := e.subject
    date := d
    status := "absent"
    attendance_type := "routine"
    start_time := e.start_time
    end_time := e.end_time
    notes := ""
    is_holiday := false }

/-- Modelled from the spec: the candidate records of a materialization
run — for every date d in the range, for every routine entry whose
day_of_week equals the weekday of d, the record with identity
(subject, d, entry.start_time). -/
def candidateRecords (entries : List RoutineEntry) (dates : List Nat) :
    List AttendanceRecord :=
  dates.flatMap (fun d =>
    (entries.filter (fun e => e.day_of_week == weekdayOf d)).map
      (fun e => materializedRecord e d))

/-- One materialization step, threading the list of newly created
records: an existing identity key is skipped untouched, a fresh one is
inserted and reported as newly created. -/
def materializeStep (st : List AttendanceRecord × List AttendanceRecord)
    (r : AttendanceRecord) : List AttendanceRecord × List AttendanceRecord :=
  if hasKey st.1 (identityKey r) then st else (r :: st.1, st.2 ++ [r])

/-- Modelled from the spec: a full materialization run over a date
range, returning the final store and the newly created records (the
Materializer's return value). -/
def materializeRun (entries : List RoutineEntry) (dates : List Nat)
    (s : List AttendanceRecord) :
    List AttendanceRecord × List AttendanceRecord :=
  (candidateRecords entries dates).foldl materializeStep (s, [])

/-- The store after a materialization run. -/
def materialize (entries : List RoutineEntry) (dates : List Nat)
    (s : List AttendanceRecord) : List AttendanceRecord :=
  (materializeRun entries dates s).1

/-- The enumerated attendance statuses. -/
def isValidStatus (t : String) : Bool :=
  t == "present" || t == "absent" || t == "cancelled"

/-- Modelled from the spec: the Attendance State Machine's status
transition — any target inside the enumerated set is accepted directly
and only the status field is rewritten; a target outside the set fails
with a ValidationError. -/
def transition (r : AttendanceRecord) (t : String) :
    Except String AttendanceRecord :=
  if isValidStatus t then Except.ok ({ r with status := t })
  else Except.error ("ValidationError")

/-- Modelled from the spec: the store-level status update — when the
target status is valid, the record with the given id has its status
rewritten and every other record is untouched; when the target is
invalid the store is left unchanged. -/
def applyStatusUpdate (s : List AttendanceRecord) (rid : Nat) (t : String) :
    List AttendanceRecord :=
  if isValidStatus t then
    s.map (fun r => if r.id = rid then { r with status := t } else r)
  else s

/-- The body of the client's status-update request: the pages call the
update endpoint with an object holding only the status field. -/
def clientStatusPatch (t : String) : List (String × String) :=
  [("status", t)]

/-- Modelled from the spec: applying one PATCH body field to a record —
the status field rewrites status, the notes field rewrites notes, and
identity fields are never touched. -/
def applyPatchField (r : AttendanceRecord) (kv : String × String) :
    AttendanceRecord :=
  if kv.1 = "status" then { r with status := kv.2 }
  else if kv.1 = "notes" then { r with notes := kv.2 }
  else r

/-- Modelled from the spec: applying a PATCH body to a record field by
field. -/
def applyPatch (r : AttendanceRecord) (body : List (String × String)) :
    AttendanceRecord :=
  body.foldl applyPatchField r

/-- The mutating operations of the core: a materialization run, an
ad-hoc insertion, and a status transition. -/
inductive StoreOp where
  | materializeOp (entries : List RoutineEntry) (dates : List Nat)
  | adhocInsert (r : AttendanceRecord)
  | statusUpdate (rid : Nat) (target : String)

/-- Modelled from the spec: the effect of each mutating operation on the
store.  Ad-hoc insertion goes through the same insert-if-absent store
semantic as materialization (duplicate-insert attempts are rejected or
ignored by the underlying store). -/
def applyOp (s : List AttendanceRecord) : StoreOp → List AttendanceRecord
  | StoreOp.materializeOp entries dates => materialize entries dates s
  | StoreOp.adhocInsert r => insertIfAbsent s r
  | StoreOp.statusUpdate rid t => applyStatusUpdate s rid t

/-- The store invariant: identity keys are pairwise distinct. -/
def UniqueKeys (s : List AttendanceRecord) : Prop :=
  s.Pairwise (fun a b => identityKey a ≠ identityKey b)

/-- A record that counts toward the numerator of the §4.3 percentage:
present and not holiday-flagged. -/
def isPresentCounted (r : AttendanceRecord) : Bool :=
  r.status == "present" && !r.is_holiday

/-- A record that counts as an absence in the §4.3 denominator: absent
and not holiday-flagged. -/
def isAbsentCounted (r : AttendanceRecord) : Bool :=
  r.status == "absent" && !r.is_holiday

/-- Modelled from the spec: total_attended = count of present,
non-holiday records. -/
def totalAttended (rs : List AttendanceRecord) : Nat :=
  (rs.filter isPresentCounted).length

/-- Modelled from the spec: total_absent = count of absent, non-holiday
records. -/
def totalAbsent (rs : List AttendanceRecord) : Nat :=
  (rs.filter isAbsentCounted).length

/-- Modelled from the spec: the denominator policy
total_conducted = count(present) + count(absent); cancelled and
holiday-flagged records are excluded entirely. -/
def totalConducted (rs : List AttendanceRecord) : Nat :=
  totalAttended rs + totalAbsent rs

/-- Modelled from the spec: total_cancelled = count of cancelled
records. -/
def totalCancelled (rs : List AttendanceRecord) : Nat :=
  (rs.filter (fun r => r.status == "cancelled")).length

/-- Modelled from the spec: attendance_percentage =
attended / conducted * 100 in full rational precision, defined as
exactly 0 when conducted = 0 (no division by zero). -/
def pctOf (attended conducted : Nat) : ℚ :=
  if conducted = 0 then 0 else (attended : ℚ) / (conducted : ℚ) * 100

/-- The attendance percentage of a record set. -/
def attendancePercentage (rs : List AttendanceRecord) : ℚ :=
  pctOf (totalAttended rs) (totalConducted rs)

/-- Modelled from the spec: the classification bands — safe when the
percentage is at least min + 5, borderline when it is at least min but
below min + 5, shortage when it is below min. -/
def statusOf (pct minReq : ℚ) : String :=
  if minReq + 5 ≤ pct then ("safe")
  else if minReq ≤ pct then ("borderline")
  else ("shortage")

/-- Modelled from the spec: classes_can_miss =
max(0, floor(attended * 100 / min) - conducted); with min = 0 there is
no minimum configured and the count is unbounded, reported as the
sentinel value none.  Nat subtraction and division give the floor-at-0
and the floor division directly. -/
def classesCanMiss (minReq attended conducted : Nat) : Option Nat :=
  if minReq = 0 then none
  else some (attended * 100 / minReq - conducted)

/-- Modelled from the spec: classes_need_to_attend =
max(0, ceil((min * conducted - 100 * attended) / (100 - min))); with
min = 100 the requirement cannot be satisfied by attending and the
sentinel value none is reported instead of dividing by zero. -/
def classesNeedToAttend (minReq attended conducted : Nat) : Option Nat :=
  if minReq = 100 then none
  else some ((minReq * conducted - 100 * attended + (100 - minReq) - 1)
    / (100 - minReq))

/-- Modelled from the spec: the trailing bucket a record date falls
into, anchored on today — bucket 0 is the most recent width-day window,
bucket 1 the one before it, and so on; future dates fall into no
bucket. -/
def bucketOf (width today d : Nat) : Option Nat :=
  if d ≤ today then some ((today - d) / width) else none

/-- Modelled from the spec: the non-cancelled records of a subject that
fall into a given trailing bucket. -/
def bucketRecords (width today idx : Nat) (rs : List AttendanceRecord) :
    List AttendanceRecord :=
  rs.filter (fun r =>
    r.status != "cancelled" && decide (bucketOf width today r.date = some idx))

/-- Modelled from the spec: the trend data point of one bucket — the
§4.3 percentage restricted to the bucket's records, or nothing when the
bucket has zero conducted classes (such buckets are omitted, never
emitted as a 0% point). -/
def trendPoint (width today : Nat) (rs : List AttendanceRecord)
    (idx : Nat) : Option (Nat × ℚ) :=
  if totalConducted (bucketRecords width today idx rs) = 0 then none
  else some (idx, attendancePercentage (bucketRecords width today idx rs))

/-- Modelled from the spec: the trend output — the trailing n buckets,
oldest first and most recent bucket last, with zero-conducted buckets
omitted. -/
def trendSeq (width n today : Nat) (rs : List AttendanceRecord) :
    List (Nat × ℚ) :=
  ((List.range n).reverse).filterMap (trendPoint width today rs)

/-- The default weekly bucket count, from the frontend analytics client
(getWeeklyTrends in src/unnamed/part_004 defaults weeks to 8). -/
def defaultWeeklyBuckets : Nat := 8

/-- The default monthly bucket count, from the frontend analytics client
(getMonthlyTrends in src/unnamed/part_004 defaults months to 6). -/
def defaultMonthlyBuckets : Nat := 6

/-- The weekly trend with the default bucket count (7-day buckets). -/
def getWeeklyTrends (today : Nat) (rs : List AttendanceRecord) :
    List (Nat × ℚ) :=
  trendSeq 7 defaultWeeklyBuckets today rs

/-- The monthly trend with the default bucket count (30-day buckets). -/
def getMonthlyTrends (today : Nat) (rs : List AttendanceRecord) :
    List (Nat × ℚ) :=
  trendSeq 30 defaultMonthlyBuckets today rs

/-- The semester date range as the routine-timetable client sees it
(start_date and end_date may be absent while the semester loads). -/
structure SemesterDates where
  start_date : Option Nat
  end_date : Option Nat

/-- isDateInSemester from the routine page: false unless both semester
dates are present and the date lies between them inclusively. -/
def isDateInSemester (sem : SemesterDates) (d : Nat) : Bool :=
  match sem.start_date, sem.end_date with
  | some s, some e => decide (s ≤ d) && decide (d ≤ e)
  | _, _ => false

/-- isFutureDate from the routine page: the date is strictly after
today. -/
def isFutureDate (today d : Nat) : Bool := decide (today < d)

/-- canMarkAttendance from the routine page: the date must be in the
semester range and not in the future. -/
def canMarkAttendance (sem : SemesterDates) (today d : Nat) : Bool :=
  isDateInSemester sem d && !isFutureDate today d

/-- A network request the routine-timetable client can issue from a
class cell: generate the date's classes, or update one record's
status. -/
inductive ClientRequest where
  | generate (date : Nat)
  | update (rid : Nat) (status : String)
  deriving DecidableEq, Repr

/-- The client's fixed status cycle from the routine page:
absent to present to cancelled to absent, defaulting to present. -/
def statusCycle (s : String) : String :=
  if s == "absent" then ("present")
  else if s == "present" then ("cancelled")
  else if s == "cancelled" then ("absent")
  else ("present")

/-- A class cell of the timetable grid: its date and the attendance
record found for it, when one exists. -/
structure TimetableCell where
  attendance : Option AttendanceRecord
  date : Nat

/-- handleAttendanceClick from the routine page: nothing is issued
unless the date can be marked; with no attendance record a generation
request is issued, otherwise a status update to the cycle successor. -/
def handleAttendanceClick (sem : SemesterDates) (today : Nat)
    (cell : TimetableCell) : Option ClientRequest :=
  if !canMarkAttendance sem today cell.date then none
  else
    match cell.attendance with
    | none => some (ClientRequest.generate cell.date)
    | some a => some (ClientRequest.update a.id (statusCycle a.status))

/-- A concrete routine entry used to evaluate the theorems on a closed
input. -/
def sampleEntry : RoutineEntry :=
  { id := 1
    subject := 1
    day_of_week := 0
    start_time := 600
    end_time := 660 }

/-- A concrete absent record used as a counterexample input. -/
def absentSample : AttendanceRecord :=
  { id := 1
    subject := 1
    date := 3
    status := "absent"
    attendance_type := "routine"
    start_time := 540
    end_time := 600
    notes := ""
    is_holiday := false }

/-- Membership characterization of hasKey. -/
theorem hasKey_iff (s : List AttendanceRecord) (k : Nat × Nat × Nat) :
    hasKey s k = true ↔ ∃ r ∈ s, identityKey r = k := by
  simp [hasKey, List.any_eq_true]

/-- Inserting an already-present identity key leaves the store
unchanged. -/
theorem insertIfAbsent_of_hasKey {s : List AttendanceRecord}
    {r : AttendanceRecord} (h : hasKey s (identityKey r) = true) :
    insertIfAbsent s r = s := by
  simp [insertIfAbsent, h]

/-- After an insert-if-absent, the record's identity key is present. -/
theorem hasKey_insertIfAbsent_self (s : List AttendanceRecord)
    (r : AttendanceRecord) :
    hasKey (insertIfAbsent s r) (identityKey r) = true := by
  by_cases hk : hasKey s (identityKey r) = true
  · rw [insertIfAbsent_of_hasKey hk]; exact hk
  · rw [insertIfAbsent, if_neg hk]
    exact (hasKey_iff _ _).mpr ⟨r, List.mem_cons_self r s, rfl⟩

/-- Insert-if-absent never removes an identity key. -/
theorem hasKey_insertIfAbsent_mono {s : List AttendanceRecord}
    {k : Nat × Nat × Nat} (r : AttendanceRecord) (h : hasKey s k = true) :
    hasKey (insertIfAbsent s r) k = true := by
  by_cases hk : hasKey s (identityKey r) = true
  · rw [insertIfAbsent_of_hasKey hk]; exact h
  · rw [insertIfAbsent, if_neg hk]
    rcases (hasKey_iff s k).mp h with ⟨x, hx, hxk⟩
    exact (hasKey_iff _ _).mpr ⟨x, List.mem_cons_of_mem r hx, hxk⟩

/-- Insert-if-absent never removes a record. -/
theorem mem_insertIfAbsent {s : List AttendanceRecord}
    {x : AttendanceRecord} (r : AttendanceRecord) (h : x ∈ s) :
    x ∈ insertIfAbsent s r := by
  by_cases hk : hasKey s (identityKey r) = true
  · rw [insertIfAbsent_of_hasKey hk]; exact h
  · rw [insertIfAbsent, if_neg hk]; exact List.mem_cons_of_mem r h

/-- Insert-if-absent preserves the uniqueness invariant. -/
theorem uniqueKeys_insertIfAbsent (r : AttendanceRecord)
    {s : List AttendanceRecord} (h : UniqueKeys s) :
    UniqueKeys (insertIfAbsent s r) := by
  by_cases hk : hasKey s (identityKey r) = true
  · rw [insertIfAbsent_of_hasKey hk]; exact h
  · rw [insertIfAbsent, if_neg hk]
    refine List.Pairwise.cons ?_ h
    intro b hb heq
    exact hk ((hasKey_iff _ _).mpr ⟨b, hb, heq.symm⟩)

/-- A fold of insert-if-absent never removes a record. -/
theorem mem_foldl_insert {l s : List AttendanceRecord}
    {x : AttendanceRecord} (h : x ∈ s) :
    x ∈ l.foldl insertIfAbsent s := by
  induction l generalizing s with
  | nil => exact h
  | cons a l ih => exact ih (mem_insertIfAbsent a h)

/-- A fold of insert-if-absent never removes an identity key. -/
theorem hasKey_foldl_insert_mono {l s : List AttendanceRecord}
    {k : Nat × Nat × Nat} (h : hasKey s k = true) :
    hasKey (l.foldl insertIfAbsent s) k = true := by
  induction l generalizing s with
  | nil => exact h
  | cons a l ih => exact ih (hasKey_insertIfAbsent_mono a h)

/-- After a fold of insert-if-absent, every folded record's identity key
is present in the store. -/
theorem hasKey_foldl_insert_all (l : List AttendanceRecord)
    (s : List AttendanceRecord) :
    ∀ r ∈ l, hasKey (l.foldl insertIfAbsent s) (identityKey r) = true := by
  induction l generalizing s with
  | nil => intro r hr; cases hr
  | cons a l ih =>
      intro r hr
      rw [List.foldl_cons]
      rcases List.mem_cons.mp hr with rfl | hr
      · exact hasKey_foldl_insert_mono (hasKey_insertIfAbsent_self s r)
      · exact ih (insertIfAbsent s a) r hr

/-- Folding insert-if-absent over records whose identity keys are all
already present is a no-op. -/
theorem foldl_insert_of_all_hasKey {l s : List AttendanceRecord}
    (h : ∀ r ∈ l, hasKey s (identityKey r) = true) :
    l.foldl insertIfAbsent s = s := by
  induction l with
  | nil => rfl
  | cons a l ih =>
      rw [List.foldl_cons, insertIfAbsent_of_hasKey (h a (List.mem_cons_self a l))]
      exact ih (fun r hr => h r (List.mem_cons_of_mem a hr))

/-- A fold of insert-if-absent preserves the uniqueness invariant. -/
theorem uniqueKeys_foldl_insert {l s : List AttendanceRecord}
    (h : UniqueKeys s) : UniqueKeys (l.foldl insertIfAbsent s) := by
  induction l generalizing s with
  | nil => exact h
  | cons a l ih => exact ih (uniqueKeys_insertIfAbsent a h)

/-- The store component of a materialization fold is the plain fold of
insert-if-absent. -/
theorem materializeRun_fst (l : List AttendanceRecord)
    (s new : List AttendanceRecord) :
    (l.foldl materializeStep (s, new)).1 = l.foldl insertIfAbsent s := by
  induction l generalizing s new with
  | nil => rfl
  | cons a l ih =>
      rw [List.foldl_cons, List.foldl_cons]
      by_cases hk : hasKey s (identityKey a) = true
      · rw [show materializeStep (s, new) a = (s, new) by
          simp [materializeStep, hk]]
        rw [insertIfAbsent_of_hasKey hk]
        exact ih s new
      · rw [show materializeStep (s, new) a = (a :: s, new ++ [a]) by
          simp [materializeStep, hk]]
        rw [show insertIfAbsent s a = a :: s by rw [insertIfAbsent, if_neg hk]]
        exact ih (a :: s) (new ++ [a])

/-- A materialization fold over records whose identity keys are all
already present changes nothing and creates nothing. -/
theorem materializeRun_of_all_hasKey {l : List AttendanceRecord}
    {s new : List AttendanceRecord}
    (h : ∀ r ∈ l, hasKey s (identityKey r) = true) :
    l.foldl materializeStep (s, new) = (s, new) := by
  induction l with
  | nil => rfl
  | cons a l ih =>
      rw [List.foldl_cons, show materializeStep (s, new) a = (s, new) by
        simp [materializeStep, h a (List.mem_cons_self a l)]]
      exact ih (fun r hr => h r (List.mem_cons_of_mem a hr))

/-- The status update map leaves every identity key unchanged. -/
theorem identityKey_statusMap (rid : Nat) (t : String)
    (r : AttendanceRecord) :
    identityKey (if r.id = rid then { r with status := t } else r) =
      identityKey r := by
  by_cases h1 : r.id = rid <;> simp [h1, identityKey]

/-- C1: every mutating operation of the core (materialization, ad-hoc
insertion, status transition) preserves the invariant that at most one
AttendanceRecord exists per identity key (subject_id, date, start_time):
from a store with pairwise-distinct identity keys, the resulting store
again has pairwise-distinct identity keys, so two records of the
resulting store that agree on subject_id, date and start_time are the
same record. -/
theorem claim_C1_identity_key_unique (s : List AttendanceRecord)
    (op : StoreOp) (h : UniqueKeys s) :
    UniqueKeys (applyOp s op) ∧
    ∀ a ∈ applyOp s op, ∀ b ∈ applyOp s op,
      identityKey a = identityKey b → a = b := by
  have huniq : UniqueKeys (applyOp s op) := by
    cases op with
    | materializeOp entries dates =>
        show UniqueKeys (materialize entries dates s)
        rw [materialize, materializeRun, materializeRun_fst]
        exact uniqueKeys_foldl_insert h
    | adhocInsert r => exact uniqueKeys_insertIfAbsent r h
    | statusUpdate rid t =>
        show UniqueKeys (applyStatusUpdate s rid t)
        rw [applyStatusUpdate]
        by_cases hv : isValidStatus t = true
        · rw [if_pos hv, UniqueKeys, List.pairwise_map]
          refine List.Pairwise.imp ?_ h
          intro a b hab
          rw [identityKey_statusMap rid t a, identityKey_statusMap rid t b]
          exact hab
        · rw [if_neg hv]; exact h
  refine ⟨huniq, ?_⟩
  intro a ha b hb hab
  by_contra hne
  exact List.Pairwise.forall (fun x y hxy => hxy.symm) huniq ha hb hne hab

/-- Witness for C1 at a concrete store and operation. -/
theorem claim_C1_witness :
    UniqueKeys (applyOp [] (StoreOp.adhocInsert absentSample)) ∧
    UniqueKeys (applyOp [absentSample]
      (StoreOp.statusUpdate 1 ("present"))) := by
  refine ⟨(claim_C1_identity_key_unique [] (StoreOp.adhocInsert absentSample)
    List.Pairwise.nil).1, ?_⟩
  exact (claim_C1_identity_key_unique [absentSample]
    (StoreOp.statusUpdate 1 ("present"))
    (List.pairwise_singleton _ _)).1

/-- C2: materialization is idempotent: a second run over the same range
changes nothing and creates zero new records; records already in the
store survive any run entirely untouched (status, notes and type
unchanged since the record itself is unchanged); and a second run over
any sub-range of already-materialized dates is a no-op. -/
theorem claim_C2_materialize_idempotent (entries : List RoutineEntry)
    (dates : List Nat) (s : List AttendanceRecord) :
    materialize entries dates (materialize entries dates s) =
      materialize entries dates s ∧
    (materializeRun entries dates (materialize entries dates s)).2 = [] ∧
    (∀ r ∈ s, r ∈ materialize entries dates s) ∧
    (∀ dates2 : List Nat, (∀ d ∈ dates2, d ∈ dates) →
      materialize entries dates2 (materialize entries dates s) =
        materialize entries dates s) := by
  have hMfold : materialize entries dates s =
      (candidateRecords entries dates).foldl insertIfAbsent s := by
    rw [materialize, materializeRun, materializeRun_fst]
  have hall : ∀ r ∈ candidateRecords entries dates,
      hasKey (materialize entries dates s) (identityKey r) = true := by
    rw [hMfold]; exact hasKey_foldl_insert_all _ s
  have hrun : materializeRun entries dates (materialize entries dates s) =
      (materialize entries dates s, []) :=
    materializeRun_of_all_hasKey hall
  refine ⟨?_, ?_, ?_, ?_⟩
  · rw [materialize, hrun]
  · rw [hrun]
  · intro r hr; rw [hMfold]; exact mem_foldl_insert hr
  · intro dates2 hsub
    have hall2 : ∀ r ∈ candidateRecords entries dates2,
        hasKey (materialize entries dates s) (identityKey r) = true := by
      intro r hr
      rcases List.mem_flatMap.mp hr with ⟨d, hd, hrd⟩
      exact hall r (List.mem_flatMap.mpr ⟨d, hsub d hd, hrd⟩)
    rw [materialize, materializeRun, materializeRun_of_all_hasKey hall2]

/-- Witness for C2 at a concrete routine, range and store. -/
theorem claim_C2_witness :
    materialize [sampleEntry] [0, 7]
        (materialize [sampleEntry] [0, 7] []) =
      materialize [sampleEntry] [0, 7] [] ∧
    (materializeRun [sampleEntry] [0, 7]
        (materialize [sampleEntry] [0, 7] [])).2 = [] ∧
    materialize [sampleEntry] [0] (materialize [sampleEntry] [0, 7] []) =
      materialize [sampleEntry] [0, 7] [] := by
  have h := claim_C2_materialize_idempotent [sampleEntry] [0, 7] []
  exact ⟨h.1, h.2.1, h.2.2.2 [0] (by decide)⟩

/-- The full behaviour of the percentage formula on counts with
attended at most conducted: bounds, the division formula away from zero,
and the exact characterization of a zero percentage. -/
theorem pctOf_spec (a c : Nat) (h : a ≤ c) :
    0 ≤ pctOf a c ∧ pctOf a c ≤ 100 ∧
    (c ≠ 0 → pctOf a c = (a : ℚ) / (c : ℚ) * 100) ∧
    (pctOf a c = 0 ↔ a = 0) := by
  by_cases hc : c = 0
  · subst hc
    have ha : a = 0 := Nat.le_zero.mp h
    subst ha
    simp [pctOf]
  · have hc0 : (0 : ℚ) < (c : ℚ) := by exact_mod_cast Nat.pos_of_ne_zero hc
    have hval : pctOf a c = (a : ℚ) / (c : ℚ) * 100 := by rw [pctOf, if_neg hc]
    have h0 : (0 : ℚ) ≤ (a : ℚ) / (c : ℚ) * 100 := by positivity
    have h1 : (a : ℚ) / (c : ℚ) ≤ 1 := (div_le_one hc0).mpr (by exact_mod_cast h)
    refine ⟨hval ▸ h0, ?_, fun _ => hval, ?_⟩
    · rw [hval]
      calc (a : ℚ) / (c : ℚ) * 100 ≤ 1 * 100 :=
            mul_le_mul_of_nonneg_right h1 (by norm_num)
        _ = 100 := by norm_num
    · rw [hval]
      constructor
      · intro h0q
        have haq : (a : ℚ) = 0 := by
          rcases mul_eq_zero.mp h0q with hd | h100
          · rcases div_eq_zero_iff.mp hd with hz | hz
            · exact hz
            · exact absurd hz (ne_of_gt hc0)
          · norm_num at h100
        exact_mod_cast haq
      · intro ha
        rw [ha]
        simp

/-- C3 (amended): for every record set, the attendance percentage lies
between 0 and 100, equals attended / conducted * 100 whenever conducted
is nonzero (no division by zero is ever performed), and is 0 exactly
when total_attended = 0 — in particular it is 0 whenever
total_conducted = 0, but not only then. -/
theorem claim_C3_percentage_bounds (rs : List AttendanceRecord) :
    0 ≤ attendancePercentage rs ∧ attendancePercentage rs ≤ 100 ∧
    (totalConducted rs ≠ 0 → attendancePercentage rs =
      (totalAttended rs : ℚ) / (totalConducted rs : ℚ) * 100) ∧
    (attendancePercentage rs = 0 ↔ totalAttended rs = 0) := by
  exact pctOf_spec (totalAttended rs) (totalConducted rs)
    (Nat.le_add_right _ _)

/-- C3 counterexample: a store holding one absent record has
attendance_percentage = 0 while total_conducted = 1 ≠ 0, so the
percentage is not 0 exactly when total_conducted = 0. -/
theorem claim_C3_counterexample :
    ¬ (attendancePercentage [absentSample] = 0 ↔
        totalConducted [absentSample] = 0) := by
  have hc : totalConducted [absentSample] = 1 := by decide
  have ha : totalAttended [absentSample] = 0 := by decide
  have hp : attendancePercentage [absentSample] = 0 := by
    rw [attendancePercentage, ha, hc, pctOf]
    norm_num
  intro hiff
  rw [hc] at hiff
  exact Nat.one_ne_zero (hiff.mp hp)

/-- Witness for C3 at a concrete record set. -/
theorem claim_C3_witness :
    0 ≤ attendancePercentage [absentSample] ∧
    attendancePercentage [absentSample] ≤ 100 ∧
    (attendancePercentage [absentSample] = 0 ↔
      totalAttended [absentSample] = 0) := by
  have h := claim_C3_percentage_bounds [absentSample]
  exact ⟨h.1, h.2.1, h.2.2.2⟩

/-- C4: over the whole percentage/minimum domain the classification
bands are exactly as specified — safe iff the percentage is at least
min + 5, shortage iff it is below min, borderline iff it is at least min
but below min + 5 — and the three bands are mutually exclusive (the
classification is a single value) and exhaustive. -/
theorem claim_C4_classification (pct minReq : ℚ) (h0 : 0 ≤ pct)
    (h1 : pct ≤ 100) (h2 : 0 ≤ minReq) (h3 : minReq ≤ 100) :
    (statusOf pct minReq = "safe" ↔ minReq + 5 ≤ pct) ∧
    (statusOf pct minReq = "shortage" ↔ pct < minReq) ∧
    (statusOf pct minReq = "borderline" ↔
      minReq ≤ pct ∧ pct < minReq + 5) ∧
    (statusOf pct minReq = "safe" ∨ statusOf pct minReq = "borderline" ∨
      statusOf pct minReq = "shortage") := by
  rw [statusOf]
  by_cases hA : minReq + 5 ≤ pct
  · rw [if_pos hA]
    refine ⟨⟨fun _ => hA, fun _ => rfl⟩, ?_, ?_, Or.inl rfl⟩
    · constructor
      · intro hstr; exact absurd hstr (by decide)
      · intro hlt; exact absurd hA (not_le.mpr (by linarith))
    · constructor
      · intro hstr; exact absurd hstr (by decide)
      · intro hb; exact absurd hA (not_le.mpr hb.2)
  · rw [if_neg hA]
    by_cases hB : minReq ≤ pct
    · rw [if_pos hB]
      refine ⟨?_, ?_, ⟨fun _ => ⟨hB, not_le.mp hA⟩, fun _ => rfl⟩,
        Or.inr (Or.inl rfl)⟩
      · constructor
        · intro hstr; exact absurd hstr (by decide)
        · intro hge; exact absurd hge hA
      · constructor
        · intro hstr; exact absurd hstr (by decide)
        · intro hlt; exact absurd hB (not_le.mpr hlt)
    · rw [if_neg hB]
      refine ⟨?_, ⟨fun _ => not_le.mp hB, fun _ => rfl⟩, ?_,
        Or.inr (Or.inr rfl)⟩
      · constructor
        · intro hstr; exact absurd hstr (by decide)
        · intro hge; exact absurd (by linarith : minReq ≤ pct) hB
      · constructor
        · intro hstr; exact absurd hstr (by decide)
        · intro hb; exact absurd hb.1 hB

/-- Witness for C4 at concrete percentages. -/
theorem claim_C4_witness :
    statusOf 50 75 = "shortage" ∧ statusOf 90 75 = "safe" := by
  have h1 := claim_C4_classification 50 75 (by norm_num) (by norm_num)
    (by norm_num) (by norm_num)
  have h2 := claim_C4_classification 90 75 (by norm_num) (by norm_num)
    (by norm_num) (by norm_num)
  exact ⟨h1.2.1.mpr (by norm_num), h2.1.mpr (by norm_num)⟩

/-- The classification misses shortage exactly when the percentage
reaches the minimum. -/
theorem statusOf_ne_shortage_iff (pct minReq : ℚ) :
    statusOf pct minReq ≠ "shortage" ↔ minReq ≤ pct := by
  rw [statusOf]
  by_cases hA : minReq + 5 ≤ pct
  · rw [if_pos hA]
    exact ⟨fun _ => by linarith, fun _ => by decide⟩
  · rw [if_neg hA]
    by_cases hB : minReq ≤ pct
    · rw [if_pos hB]
      exact ⟨fun _ => hB, fun _ => by decide⟩
    · rw [if_neg hB]
      exact ⟨fun h => absurd rfl h, fun h => absurd h hB⟩

/-- A subject not classified shortage under a positive minimum has a
positive denominator and meets the minimum in cleared form. -/
theorem meets_min_of_not_shortage {minReq attended conducted : Nat}
    (hmin : 0 < minReq)
    (hstat : statusOf (pctOf attended conducted) minReq ≠ "shortage") :
    0 < conducted ∧ minReq * conducted ≤ attended * 100 := by
  have hle : (minReq : ℚ) ≤ pctOf attended conducted :=
    (statusOf_ne_shortage_iff _ _).mp hstat
  by_cases hc : conducted = 0
  · rw [pctOf, if_pos hc] at hle
    have hq : (0 : ℚ) < (minReq : ℚ) := by exact_mod_cast hmin
    linarith
  · have hcpos : 0 < conducted := Nat.pos_of_ne_zero hc
    have hc0 : (0 : ℚ) < (conducted : ℚ) := by exact_mod_cast hcpos
    rw [pctOf, if_neg hc] at hle
    have h2 : (minReq : ℚ) * (conducted : ℚ) ≤ (attended : ℚ) * 100 := by
      rw [div_mul_eq_mul_div] at hle
      exact (le_div_iff₀ hc0).mp hle
    exact ⟨hcpos, by exact_mod_cast h2⟩

/-- C5 (amended): for a subject classified safe or borderline under a
positive minimum, classes_can_miss is
max(0, floor(attended * 100 / min) - conducted), and this value is the
greatest number of further absences that keeps the percentage at or
above the minimum; at min = 75, attended = 40, conducted = 45 the value
is 8. -/
theorem claim_C5_classes_can_miss (minReq attended conducted : Nat)
    (hmin : 0 < minReq)
    (hstat : statusOf (pctOf attended conducted) minReq ≠ "shortage") :
    ∃ N, classesCanMiss minReq attended conducted = some N ∧
      N = attended * 100 / minReq - conducted ∧
      (minReq : ℚ) / 100 ≤ (attended : ℚ) / ((conducted : ℚ) + (N : ℚ)) ∧
      (∀ n : Nat,
        (minReq : ℚ) / 100 ≤ (attended : ℚ) / ((conducted : ℚ) + (n : ℚ)) →
        n ≤ N) ∧
      classesCanMiss 75 40 45 = some 8 := by
  obtain ⟨hcpos, hkey⟩ := meets_min_of_not_shortage hmin hstat
  refine ⟨attended * 100 / minReq - conducted, ?_, rfl, ?_, ?_, by decide⟩
  · rw [classesCanMiss, if_neg (Nat.pos_iff_ne_zero.mp hmin)]
  · have hfloor : conducted ≤ attended * 100 / minReq :=
      (Nat.le_div_iff_mul_le hmin).mpr (by
        rw [Nat.mul_comm]; exact hkey)
    have hcN : conducted + (attended * 100 / minReq - conducted) =
        attended * 100 / minReq := Nat.add_sub_cancel' hfloor
    have hNat : minReq * (conducted + (attended * 100 / minReq - conducted)) ≤
        attended * 100 := by
      rw [hcN, Nat.mul_comm]
      exact Nat.div_mul_le_self (attended * 100) minReq
    have e1 : (conducted : ℚ) +
        ((attended * 100 / minReq - conducted : Nat) : ℚ) =
        ((conducted + (attended * 100 / minReq - conducted) : Nat) : ℚ) := by
      push_cast
      ring
    have hpos : (0 : ℚ) <
        ((conducted + (attended * 100 / minReq - conducted) : Nat) : ℚ) := by
      exact_mod_cast Nat.lt_of_lt_of_le hcpos (Nat.le_add_right _ _)
    rw [e1, div_le_div_iff₀ (by norm_num) hpos]
    exact_mod_cast hNat
  · intro n hn
    have hposn : (0 : ℚ) < ((conducted + n : Nat) : ℚ) := by
      exact_mod_cast Nat.lt_of_lt_of_le hcpos (Nat.le_add_right _ _)
    have e2 : (conducted : ℚ) + (n : ℚ) = ((conducted + n : Nat) : ℚ) := by
      push_cast
      ring
    rw [e2, div_le_div_iff₀ (by norm_num) hposn] at hn
    have hNatn : minReq * (conducted + n) ≤ attended * 100 := by
      exact_mod_cast hn
    have h7 : conducted + n ≤ attended * 100 / minReq :=
      (Nat.le_div_iff_mul_le hmin).mpr (by rw [Nat.mul_comm]; exact hNatn)
    omega

/-- C5 counterexample: at min = 75, attended = 40 (5 absent, 2
cancelled, conducted = 45), the stated formula
max(0, floor(attended * 100 / min) - conducted) yields 8, not the 6 the
claim asserts. -/
theorem claim_C5_counterexample :
    classesCanMiss 75 40 45 ≠ some 6 := by decide

/-- Witness for C5 at min = 75, attended = 40, conducted = 45. -/
theorem claim_C5_witness : classesCanMiss 75 40 45 = some 8 := by
  obtain ⟨N, h1, h2, h3, h4, h5⟩ :=
    claim_C5_classes_can_miss 75 40 45 (by decide)
      (by norm_num [statusOf, pctOf]; decide)
  exact h5

/-- Ceiling division in Nat: the ceiling of T / D is at most n exactly
when T is at most n * D. -/
theorem ceil_div_le_iff (T D n : Nat) (hD : 0 < D) :
    (T + D - 1) / D ≤ n ↔ T ≤ n * D := by
  rw [Nat.div_le_iff_le_mul_add_pred hD, Nat.mul_comm D n]
  omega

/-- The catch-up inequality with denominators cleared, as a linear
condition on the number of extra attended classes. -/
theorem catchup_cleared (minReq attended conducted n : Nat)
    (hm : minReq ≤ 100) :
    minReq * (conducted + n) ≤ (attended + n) * 100 ↔
      minReq * conducted - 100 * attended ≤ n * (100 - minReq) := by
  have h1 : minReq * (conducted + n) = minReq * conducted + minReq * n := by
    ring
  have h2 : (attended + n) * 100 = attended * 100 + n * 100 := by ring
  have h3 : n * (100 - minReq) = n * 100 - n * minReq :=
    mul_tsub n 100 minReq
  have h4 : n * minReq = minReq * n := Nat.mul_comm n minReq
  have h5 : 100 * attended = attended * 100 := Nat.mul_comm 100 attended
  have h6 : minReq * n ≤ n * 100 := by
    rw [Nat.mul_comm minReq n]
    exact Nat.mul_le_mul_left n hm
  rw [h1, h2, h3, h4, h5]
  omega

/-- C6: for every subject with min < 100, classes_need_to_attend is
max(0, ceil((min * conducted - 100 * attended) / (100 - min))), and for
every n with a nonzero denominator, attending n further classes reaches
the minimum percentage exactly when n is at least that value (so it is
the minimum such n); with min = 100 the sentinel is reported instead of
dividing by zero; at min = 75, attended = 10, conducted = 20 the value
is 20. -/
theorem claim_C6_classes_need_to_attend (minReq attended conducted : Nat)
    (hlt : minReq < 100) :
    ∃ N, classesNeedToAttend minReq attended conducted = some N ∧
      (∀ n : Nat, 0 < conducted + n →
        ((minReq : ℚ) / 100 ≤
            ((attended : ℚ) + (n : ℚ)) / ((conducted : ℚ) + (n : ℚ)) ↔
          N ≤ n)) ∧
      classesNeedToAttend 100 attended conducted = none ∧
      classesNeedToAttend 75 10 20 = some 20 := by
  have hD : 0 < 100 - minReq := by omega
  refine ⟨(minReq * conducted - 100 * attended + (100 - minReq) - 1)
    / (100 - minReq), ?_, ?_, ?_, by decide⟩
  · rw [classesNeedToAttend, if_neg (by omega : ¬ minReq = 100)]
  · intro n hcn
    have hposn : (0 : ℚ) < ((conducted + n : Nat) : ℚ) := by
      exact_mod_cast hcn
    have e1 : (conducted : ℚ) + (n : ℚ) = ((conducted + n : Nat) : ℚ) := by
      push_cast
      ring
    have e2 : (attended : ℚ) + (n : ℚ) = ((attended + n : Nat) : ℚ) := by
      push_cast
      ring
    rw [e1, e2, div_le_div_iff₀ (by norm_num) hposn]
    have hNat : minReq * (conducted + n) ≤ (attended + n) * 100 ↔
        (minReq * conducted - 100 * attended + (100 - minReq) - 1)
          / (100 - minReq) ≤ n := by
      rw [catchup_cleared minReq attended conducted n (le_of_lt hlt)]
      exact (ceil_div_le_iff (minReq * conducted - 100 * attended)
        (100 - minReq) n hD).symm
    constructor
    · intro hq
      exact hNat.mp (by exact_mod_cast hq)
    · intro hN
      exact_mod_cast hNat.mpr hN
  · rw [classesNeedToAttend, if_pos rfl]

/-- Witness for C6 at min = 75, attended = 10, conducted = 20. -/
theorem claim_C6_witness :
    classesNeedToAttend 75 10 20 = some 20 ∧
    classesNeedToAttend 100 10 20 = none := by
  obtain ⟨N, h1, h2, h3, h4⟩ :=
    claim_C6_classes_need_to_attend 75 10 20 (by decide)
  exact ⟨h4, h3⟩

/-- C7: a status transition changes only the status field: the record
produced by a successful transition agrees with the original on
attendance_type, subject, date and start_time; the client's update
request body carries only the status field, so applying it rewrites
nothing but status; and every record of the store after a store-level
status update agrees with a record of the original store on all four
identity-and-type fields. -/
theorem claim_C7_transition_frame (r r2 : AttendanceRecord) (t : String)
    (s : List AttendanceRecord) (rid : Nat) :
    (transition r t = Except.ok r2 →
      r2.attendance_type = r.attendance_type ∧ r2.subject = r.subject ∧
      r2.date = r.date ∧ r2.start_time = r.start_time) ∧
    (applyPatch r (clientStatusPatch t) = { r with status := t }) ∧
    (∀ x ∈ applyStatusUpdate s rid t, ∃ y ∈ s,
      x.attendance_type = y.attendance_type ∧ x.subject = y.subject ∧
      x.date = y.date ∧ x.start_time = y.start_time) := by
  refine ⟨?_, ?_, ?_⟩
  · intro h
    rw [transition] at h
    by_cases hv : isValidStatus t = true
    · rw [if_pos hv] at h
      have h2 : ({ r with status := t } : AttendanceRecord) = r2 := by
        injection h
      rw [← h2]
      exact ⟨rfl, rfl, rfl, rfl⟩
    · rw [if_neg hv] at h
      exact Except.noConfusion h
  · simp [applyPatch, clientStatusPatch, applyPatchField]
  · intro x hx
    rw [applyStatusUpdate] at hx
    by_cases hv : isValidStatus t = true
    · rw [if_pos hv] at hx
      rcases List.mem_map.mp hx with ⟨y, hy, hxy⟩
      refine ⟨y, hy, ?_⟩
      rw [← hxy]
      by_cases h1 : y.id = rid <;> simp [h1]
    · rw [if_neg hv] at hx
      exact ⟨x, hx, rfl, rfl, rfl, rfl⟩

/-- Witness for C7 at a concrete record and transition. -/
theorem claim_C7_witness :
    ({ absentSample with status := "present" } :
        AttendanceRecord).attendance_type =
      absentSample.attendance_type ∧
    ({ absentSample with status := "present" } :
        AttendanceRecord).date = absentSample.date := by
  have h := (claim_C7_transition_frame absentSample
    ({ absentSample with status := "present" }) ("present") [] 0).1
    (by simp [transition, isValidStatus])
  exact ⟨h.1, h.2.2.1⟩

/-- C8: the state machine accepts any target in the enumerated set
{present, absent, cancelled} directly from any current state — the
transition succeeds and sets exactly that status — and fails with a
ValidationError on any other target, leaving the store unchanged. -/
theorem claim_C8_transition_any_to_any (r : AttendanceRecord) (t : String)
    (s : List AttendanceRecord) (rid : Nat) :
    (isValidStatus t = true →
      transition r t = Except.ok ({ r with status := t })) ∧
    (isValidStatus t = false →
      transition r t = Except.error ("ValidationError") ∧
      applyStatusUpdate s rid t = s) ∧
    (isValidStatus t = true ↔
      t = "present" ∨ t = "absent" ∨ t = "cancelled") := by
  refine ⟨?_, ?_, ?_⟩
  · intro hv
    rw [transition, if_pos hv]
  · intro hv
    have hv2 : ¬ isValidStatus t = true := by
      rw [hv]
      exact Bool.false_ne_true
    exact ⟨by rw [transition, if_neg hv2], by rw [applyStatusUpdate, if_neg hv2]⟩
  · simp [isValidStatus, or_assoc]

/-- Witness for C8 at a valid and an invalid target. -/
theorem claim_C8_witness :
    transition absentSample ("present") =
      Except.ok ({ absentSample with status := "present" }) ∧
    transition absentSample ("late") = Except.error ("ValidationError") ∧
    applyStatusUpdate [absentSample] 1 ("late") = [absentSample] := by
  have h1 := (claim_C8_transition_any_to_any absentSample ("present")
    [] 0).1 (by decide)
  have h2 := (claim_C8_transition_any_to_any absentSample ("late")
    [absentSample] 1).2.1 (by decide)
  exact ⟨h1, h2.1, h2.2⟩

/-- C9: a trend query emits at most n points (8 for the default weekly
query, 6 for the default monthly query), and every emitted point is a
bucket with a nonzero conducted count whose percentage is the §4.3
formula restricted to that bucket's records — a bucket with zero
conducted classes never appears. -/
theorem claim_C9_trend_buckets (width n today : Nat)
    (rs : List AttendanceRecord) :
    (trendSeq width n today rs).length ≤ n ∧
    (getWeeklyTrends today rs).length ≤ 8 ∧
    (getMonthlyTrends today rs).length ≤ 6 ∧
    (∀ p ∈ trendSeq width n today rs,
      totalConducted (bucketRecords width today p.1 rs) ≠ 0 ∧
      p.2 = attendancePercentage (bucketRecords width today p.1 rs) ∧
      p.2 = (totalAttended (bucketRecords width today p.1 rs) : ℚ) /
        (totalConducted (bucketRecords width today p.1 rs) : ℚ) * 100) := by
  have hlen : ∀ (w k t : Nat), (trendSeq w k t rs).length ≤ k := by
    intro w k t
    calc (trendSeq w k t rs).length ≤ ((List.range k).reverse).length :=
          List.length_filterMap_le _ _
      _ = k := by rw [List.length_reverse, List.length_range]
  refine ⟨hlen width n today, hlen 7 8 today, hlen 30 6 today, ?_⟩
  intro p hp
  rcases List.mem_filterMap.mp hp with ⟨i, hi, hpi⟩
  rw [trendPoint] at hpi
  by_cases hz : totalConducted (bucketRecords width today i rs) = 0
  · rw [if_pos hz] at hpi
    exact Option.noConfusion hpi
  · rw [if_neg hz] at hpi
    have h2 : (i, attendancePercentage (bucketRecords width today i rs)) =
        p := by
      injection hpi
    rw [← h2]
    refine ⟨hz, rfl, ?_⟩
    rw [attendancePercentage, pctOf, if_neg hz]

/-- Witness for C9 at a concrete query. -/
theorem claim_C9_witness :
    (trendSeq 7 8 10 [absentSample]).length ≤ 8 ∧
    (getWeeklyTrends 10 [absentSample]).length ≤ 8 ∧
    (getMonthlyTrends 10 [absentSample]).length ≤ 6 := by
  have h := claim_C9_trend_buckets 7 8 10 [absentSample]
  exact ⟨h.1, h.2.1, h.2.2.1⟩

/-- C10: the routine-timetable client never mutates a date strictly
after today or outside the semester's date range: for such a cell a
click issues no request at all (neither generation nor status update),
and any issued request certifies that the cell's date is inside the
semester range and not in the future. -/
theorem claim_C10_client_date_guard (sem : SemesterDates) (today : Nat)
    (cell : TimetableCell) :
    ((today < cell.date ∨ isDateInSemester sem cell.date = false) →
      handleAttendanceClick sem today cell = none) ∧
    (∀ st en, sem.start_date = some st → sem.end_date = some en →
      (cell.date < st ∨ en < cell.date) →
      handleAttendanceClick sem today cell = none) ∧
    (∀ req, handleAttendanceClick sem today cell = some req →
      isDateInSemester sem cell.date = true ∧ cell.date ≤ today) := by
  have main : (today < cell.date ∨ isDateInSemester sem cell.date = false) →
      handleAttendanceClick sem today cell = none := by
    intro h
    have hcm : canMarkAttendance sem today cell.date = false := by
      rcases h with h | h
      · have hf : isFutureDate today cell.date = true := by
          rw [isFutureDate]
          exact decide_eq_true h
        simp [canMarkAttendance, hf]
      · simp [canMarkAttendance, h]
    rw [handleAttendanceClick, hcm]
    simp
  refine ⟨main, ?_, ?_⟩
  · intro st en hst hen hout
    apply main
    right
    obtain ⟨sd, ed⟩ := sem
    simp only at hst hen
    subst hst
    subst hen
    rcases hout with h | h
    · have hd : decide (st ≤ cell.date) = false :=
        decide_eq_false (Nat.not_le.mpr h)
      simp [isDateInSemester, hd]
    · have hd : decide (cell.date ≤ en) = false :=
        decide_eq_false (Nat.not_le.mpr h)
      simp [isDateInSemester, hd]
  · intro req hreq
    by_cases hcm : canMarkAttendance sem today cell.date = true
    · rw [canMarkAttendance, Bool.and_eq_true] at hcm
      obtain ⟨hin, hnf⟩ := hcm
      refine ⟨hin, ?_⟩
      rw [Bool.not_eq_true'] at hnf
      rw [isFutureDate] at hnf
      exact Nat.le_of_not_lt (of_decide_eq_false hnf)
    · have hfalse : canMarkAttendance sem today cell.date = false := by
        revert hcm
        cases canMarkAttendance sem today cell.date <;> simp
      rw [handleAttendanceClick, hfalse] at hreq
      simp at hreq

/-- Witness for C10 at a future date and an out-of-semester date. -/
theorem claim_C10_witness :
    handleAttendanceClick { start_date := some 0, end_date := some 100 }
      10 { attendance := none, date := 20 } = none ∧
    handleAttendanceClick { start_date := some 30, end_date := some 100 }
      50 { attendance := none, date := 20 } = none := by
  refine ⟨(claim_C10_client_date_guard
    { start_date := some 0, end_date := some 100 } 10
    { attendance := none, date := 20 }).1 (Or.inl (by decide)), ?_⟩
  exact (claim_C10_client_date_guard
    { start_date := some 30, end_date := some 100 } 50
    { attendance := none, date := 20 }).2.1 30 100 rfl rfl
    (Or.inl (by decide))
